import Mathlib

/-!
Verification of the windowed-page cache coordinator from `uiwwsw/Infinite-pager`.

The definitions below are shallow embeddings of the TypeScript source:
`clampWindow`, `pageFromIndex`, `buildAmazonStylePagination` and the
`useInfinitePaper` hook state (window, current page, page map, fetch effects)
are translated function by function.  JavaScript numbers are modelled as `Int`
(the program only performs integer arithmetic on them; `Math.floor(a / b)` is
integer floor division `Int.fdiv`).  The JS `Map<number, PageRecord>` is
modelled as an insertion-ordered association list, matching JS `Map.set`
semantics (replace in place when the key exists, append otherwise).
-/

namespace InfinitePaper

/-- `PageStatus` from the source: "idle" | "loading" | "loaded" | "error". -/
inductive PageStatus where
  | idle
  | loading
  | loaded
  | error
deriving DecidableEq, Repr

/-- `PageRecord<T>` from the source; `E` models the opaque `unknown` error value. -/
structure PageRecord (T E : Type) where
  page : Int
  status : PageStatus
  items : Option (List T) := none
  error : Option E := none
deriving DecidableEq, Repr

/-- `PageWindow` from the source. -/
structure PageWindow where
  startPage : Int
  endPage : Int
deriving DecidableEq, Repr

/-- `clampWindow` from the source:
`half = Math.floor(windowSize / 2)`,
`startPage = Math.max(1, Math.min(targetPage - half, totalPages - windowSize + 1))`,
`endPage = Math.min(totalPages, startPage + windowSize - 1)`. -/
def clampWindow (targetPage totalPages windowSize : Int) : PageWindow :=
  let half := Int.fdiv windowSize 2
  let startPage := max 1 (min (targetPage - half) (totalPages - windowSize + 1))
  let endPage := min totalPages (startPage + windowSize - 1)
  { startPage := startPage, endPage := endPage }

/-- `pageFromIndex` from the source: `Math.floor(index / pageSize) + 1`. -/
def pageFromIndex (index pageSize : Int) : Int :=
  Int.fdiv index pageSize + 1

/-! ### Window lemmas -/

theorem clampWindow_startPage (t tp ws : Int) :
    (clampWindow t tp ws).startPage = max 1 (min (t - Int.fdiv ws 2) (tp - ws + 1)) := rfl

theorem clampWindow_endPage (t tp ws : Int) :
    (clampWindow t tp ws).endPage =
      min tp (max 1 (min (t - Int.fdiv ws 2) (tp - ws + 1)) + ws - 1) := rfl

theorem fdiv_two_eq_ediv (w : Int) : Int.fdiv w 2 = w / 2 :=
  Int.fdiv_eq_ediv _ (by norm_num)

/-- Core bounds of `clampWindow` for a valid configuration. -/
theorem clampWindow_bounds (t tp ws : Int) (htp : 1 ≤ tp) (hws : 1 ≤ ws) :
    1 ≤ (clampWindow t tp ws).startPage ∧
    (clampWindow t tp ws).startPage ≤ (clampWindow t tp ws).endPage ∧
    (clampWindow t tp ws).endPage ≤ tp ∧
    (clampWindow t tp ws).endPage - (clampWindow t tp ws).startPage + 1 ≤ ws := by
  rw [clampWindow_startPage, clampWindow_endPage, fdiv_two_eq_ediv]
  omega

/-- The clamped window contains the target page whenever the target is in range. -/
theorem clampWindow_mem (t tp ws : Int) (ht1 : 1 ≤ t) (ht2 : t ≤ tp) (hws : 1 ≤ ws) :
    (clampWindow t tp ws).startPage ≤ t ∧ t ≤ (clampWindow t tp ws).endPage := by
  rw [clampWindow_startPage, clampWindow_endPage, fdiv_two_eq_ediv]
  omega

/-- Degenerate case: `totalPages = 0` yields the empty range `{1, 0}`. -/
theorem clampWindow_degenerate (t ws : Int) (hws : 1 ≤ ws) :
    clampWindow t 0 ws = { startPage := 1, endPage := 0 } := by
  have h := fdiv_two_eq_ediv ws
  simp only [clampWindow, h, PageWindow.mk.injEq]
  omega

/-! ### Pagination builder (`buildAmazonStylePagination`) -/

/-- `PaginationItem` from the source: tagged variant over page / ellipsis / prev / next.
The `page` variant carries `page` and `isCurrent`; `prev`/`next` carry a target page
and a `disabled` flag. -/
inductive PaginationItem where
  | page (page : Int) (isCurrent : Bool)
  | ellipsis
  | prev (page : Int) (disabled : Bool)
  | next (page : Int) (disabled : Bool)
deriving DecidableEq, Repr

/-- The inclusive integer range `[a, b]` as a list, modelling
`for (let page = a; page <= b; page += 1)`. -/
def pageRange (a b : Int) : List Int :=
  (List.range (b - a + 1).toNat).map (fun (i : Nat) => a + (i : Int))

/-- `buildAmazonStylePagination` from the source, translated clause by clause. -/
def buildAmazonStylePagination (currentPage maxAccessiblePage : Int) :
    List PaginationItem :=
  if maxAccessiblePage < 1 then []
  else
    let clampedCurrent := min (max 1 currentPage) maxAccessiblePage
    let addPage := fun (p : Int) => PaginationItem.page p (decide (p = clampedCurrent))
    let total := maxAccessiblePage
    let middle : List PaginationItem :=
      if total ≤ 7 then
        (pageRange 1 total).map addPage
      else if clampedCurrent ≤ 4 then
        (pageRange 1 5).map addPage ++ [PaginationItem.ellipsis, addPage total]
      else if clampedCurrent ≥ total - 3 then
        [addPage 1, PaginationItem.ellipsis] ++ (pageRange (total - 4) total).map addPage
      else
        [addPage 1, PaginationItem.ellipsis] ++
          (pageRange (clampedCurrent - 1) (clampedCurrent + 1)).map addPage ++
          [PaginationItem.ellipsis, addPage total]
    PaginationItem.prev (max 1 (clampedCurrent - 1)) (decide (clampedCurrent ≤ 1)) ::
      middle ++
      [PaginationItem.next (min total (clampedCurrent + 1)) (decide (clampedCurrent ≥ total))]

/-- Reference pagination list, written from the specification text (section 4.6):
clamp the current page into `[1, maxAccessiblePage]`, emit prev first and next last,
and between them the four truncation cases with thresholds 7 / 4 / total−3. -/
def referencePagination (currentPage maxAccessiblePage : Int) : List PaginationItem :=
  if maxAccessiblePage < 1 then []
  else
    let total := maxAccessiblePage
    let current := min (max 1 currentPage) total
    let numbered : List Int :=
      if total ≤ 7 then pageRange 1 total
      else if current ≤ 4 then pageRange 1 5
      else if current ≥ total - 3 then pageRange (total - 4) total
      else pageRange (current - 1) (current + 1)
    let leadingOne : List PaginationItem :=
      if total ≤ 7 ∨ current ≤ 4 then []
      else [PaginationItem.page 1 (decide ((1 : Int) = current)), PaginationItem.ellipsis]
    let trailingTotal : List PaginationItem :=
      if total ≤ 7 ∨ current ≥ total - 3 then []
      else [PaginationItem.ellipsis, PaginationItem.page total (decide (total = current))]
    [PaginationItem.prev (max 1 (current - 1)) (decide (current ≤ 1))] ++
      leadingOne ++
      numbered.map (fun p => PaginationItem.page p (decide (p = current))) ++
      trailingTotal ++
      [PaginationItem.next (min total (current + 1)) (decide (current ≥ total))]

/-- Does a pagination item carry `isCurrent = true`? -/
def isCurrentItem : PaginationItem → Bool
  | PaginationItem.page _ true => true
  | _ => false

/-- Number of items flagged as current. -/
def currentCount (l : List PaginationItem) : Nat :=
  (l.filter isCurrentItem).length

theorem mem_pageRange {p a b : Int} : p ∈ pageRange a b ↔ a ≤ p ∧ p ≤ b := by
  simp only [pageRange, List.mem_map, List.mem_range]
  constructor
  · rintro ⟨i, hi, rfl⟩
    omega
  · rintro ⟨h1, h2⟩
    exact ⟨(p - a).toNat, by omega, by omega⟩

theorem currentCount_nil : currentCount [] = 0 := rfl

theorem currentCount_cons (x : PaginationItem) (l : List PaginationItem) :
    currentCount (x :: l) = (if isCurrentItem x then 1 else 0) + currentCount l := by
  simp only [currentCount, List.filter_cons]
  split <;> simp [Nat.add_comm]

theorem currentCount_append (l₁ l₂ : List PaginationItem) :
    currentCount (l₁ ++ l₂) = currentCount l₁ + currentCount l₂ := by
  simp [currentCount, List.filter_append]

theorem isCurrentItem_page (p : Int) (b : Bool) : isCurrentItem (PaginationItem.page p b) = b := by
  cases b <;> rfl

theorem currentCount_map_range (n : Nat) (a c : Int) :
    currentCount ((List.range n).map
      (fun (i : Nat) => PaginationItem.page (a + (i : Int)) (decide (a + (i : Int) = c)))) =
    if a ≤ c ∧ c < a + (n : Int) then 1 else 0 := by
  induction n with
  | zero =>
    simp only [List.range_zero, List.map_nil, currentCount_nil]
    split_ifs <;> omega
  | succ k ih =>
    rw [List.range_succ, List.map_append, currentCount_append, ih]
    simp only [List.map_cons, List.map_nil, currentCount_cons, currentCount_nil,
      isCurrentItem_page, decide_eq_true_eq]
    split_ifs <;> omega

theorem currentCount_map_pageRange (a b c : Int) :
    currentCount ((pageRange a b).map
      (fun p => PaginationItem.page p (decide (p = c)))) =
    if a ≤ c ∧ c ≤ b then 1 else 0 := by
  rw [pageRange, List.map_map]
  have hfun : ((fun p => PaginationItem.page p (decide (p = c))) ∘ fun (i : Nat) => a + (i : Int)) =
      fun (i : Nat) => PaginationItem.page (a + (i : Int)) (decide (a + (i : Int) = c)) := rfl
  rw [hfun, currentCount_map_range]
  split_ifs <;> omega

theorem page_mem_map_pageRange {a b c : Int} (h1 : a ≤ c) (h2 : c ≤ b) :
    PaginationItem.page c true ∈
      (pageRange a b).map (fun p => PaginationItem.page p (decide (p = c))) := by
  refine List.mem_map.2 ⟨c, mem_pageRange.2 ⟨h1, h2⟩, ?_⟩
  simp

theorem currentCount_cons_prev (p : Int) (d : Bool) (l : List PaginationItem) :
    currentCount (PaginationItem.prev p d :: l) = currentCount l := rfl

theorem currentCount_cons_next (p : Int) (d : Bool) (l : List PaginationItem) :
    currentCount (PaginationItem.next p d :: l) = currentCount l := rfl

theorem currentCount_cons_ellipsis (l : List PaginationItem) :
    currentCount (PaginationItem.ellipsis :: l) = currentCount l := rfl

theorem currentCount_cons_page (p : Int) (b : Bool) (l : List PaginationItem) :
    currentCount (PaginationItem.page p b :: l) =
      (if b = true then 1 else 0) + currentCount l := by
  cases b <;> simp [currentCount, List.filter_cons, isCurrentItem, Nat.add_comm]

theorem buildAmazonStylePagination_eq_reference (c m : Int) :
    buildAmazonStylePagination c m = referencePagination c m := by
  simp only [buildAmazonStylePagination, referencePagination]
  split_ifs <;> first
    | rfl
    | (exfalso; omega)
    | simp [List.append_assoc]

/-- C2: `buildAmazonStylePagination` returns exactly the reference list (empty when
`maxAccessiblePage < 1`; prev first, next last, four truncation cases in between),
and when `maxAccessiblePage ≥ 1` exactly one page item carries `isCurrent = true`,
namely the clamped current page. -/
theorem pagination_builder_exact :
    (∀ c m : Int, buildAmazonStylePagination c m = referencePagination c m) ∧
    (∀ c m : Int, 1 ≤ m →
      currentCount (buildAmazonStylePagination c m) = 1 ∧
      PaginationItem.page (min (max 1 c) m) true ∈ buildAmazonStylePagination c m) := by
  refine ⟨buildAmazonStylePagination_eq_reference, ?_⟩
  intro c m hm
  have h1 : ¬(m < 1) := by omega
  set cc := min (max 1 c) m with hcc
  have hcc1 : 1 ≤ cc := by omega
  have hccm : cc ≤ m := by omega
  simp only [buildAmazonStylePagination, if_neg h1]
  rw [← hcc]
  by_cases h7 : m ≤ 7
  · simp only [if_pos h7]
    constructor
    · simp only [currentCount_cons_prev, currentCount_append, currentCount_nil,
        currentCount_cons_next, currentCount_map_pageRange]
      split_ifs <;> omega
    · exact List.mem_cons_of_mem _
        (List.mem_append_left _ (page_mem_map_pageRange hcc1 hccm))
  · simp only [if_neg h7]
    by_cases h4 : cc ≤ 4
    · simp only [if_pos h4]
      constructor
      · simp only [currentCount_cons_prev, currentCount_append, currentCount_nil,
          currentCount_cons_next, currentCount_cons_ellipsis, currentCount_cons_page,
          currentCount_map_pageRange, decide_eq_true_eq]
        split_ifs <;> omega
      · refine List.mem_cons_of_mem _ (List.mem_append_left _ (List.mem_append_left _ ?_))
        exact page_mem_map_pageRange hcc1 (by omega)
    · simp only [if_neg h4]
      by_cases h3 : cc ≥ m - 3
      · simp only [if_pos h3]
        constructor
        · simp only [currentCount_cons_prev, currentCount_append, currentCount_nil,
            currentCount_cons_next, currentCount_cons_ellipsis, currentCount_cons_page,
            currentCount_map_pageRange, decide_eq_true_eq]
          split_ifs <;> omega
        · refine List.mem_cons_of_mem _ (List.mem_append_left _ ?_)
          refine List.mem_append_right _ ?_
          exact page_mem_map_pageRange (by omega) hccm
      · simp only [if_neg h3]
        constructor
        · simp only [currentCount_cons_prev, currentCount_append, currentCount_nil,
            currentCount_cons_next, currentCount_cons_ellipsis, currentCount_cons_page,
            currentCount_map_pageRange, decide_eq_true_eq]
          split_ifs <;> omega
        · refine List.mem_cons_of_mem _ (List.mem_append_left _ ?_)
          refine List.mem_append_left _ (List.mem_append_right _ ?_)
          exact page_mem_map_pageRange (by omega) (by omega)

/-- Closed witness for `pagination_builder_exact` at `currentPage = 5`,
`maxAccessiblePage = 20`. -/
theorem pagination_builder_exact_witness :
    buildAmazonStylePagination 5 20 = referencePagination 5 20 ∧
    currentCount (buildAmazonStylePagination 5 20) = 1 ∧
    PaginationItem.page (min (max 1 5) 20) true ∈ buildAmazonStylePagination 5 20 :=
  ⟨pagination_builder_exact.1 5 20, pagination_builder_exact.2 5 20 (by norm_num)⟩

/-! ### Page map (JS `Map<number, PageRecord<T>>` as insertion-ordered assoc list) -/

/-- The hook's `pages` map, insertion-ordered like a JS `Map`. -/
abbrev PagesMap (T E : Type) := List (Int × PageRecord T E)

/-- `pages.get(p)`. -/
def lookupPage {T E : Type} (m : PagesMap T E) (p : Int) : Option (PageRecord T E) :=
  match m with
  | [] => none
  | (k, r) :: rest => if k = p then some r else lookupPage rest p

/-- `pages.set(p, r)`: replace in place when the key exists, append otherwise. -/
def mapSet {T E : Type} (m : PagesMap T E) (p : Int) (r : PageRecord T E) : PagesMap T E :=
  match m with
  | [] => [(p, r)]
  | (k, v) :: rest => if k = p then (p, r) :: rest else (k, v) :: mapSet rest p r

/-- Pages of the inclusive window range, in ascending order. -/
def windowPages (w : PageWindow) : List Int := pageRange w.startPage w.endPage

/-- The reconciliation effect: for every page in the window keep the existing record
or create an `idle` one; records outside the window are dropped. -/
def reconcilePages {T E : Type} (w : PageWindow) (prev : PagesMap T E) : PagesMap T E :=
  (windowPages w).map (fun p =>
    match lookupPage prev p with
    | some r => (p, r)
    | none => (p, { page := p, status := PageStatus.idle }))

/-- Statuses the fetch effect treats as missing ("idle" or "error"). -/
def isMissingStatus : PageStatus → Bool
  | PageStatus.idle => true
  | PageStatus.error => true
  | _ => false

/-- The pages the fetch effect collects: tracked, inside the window, idle or error. -/
def fetchMissing {T E : Type} (w : PageWindow) (m : PagesMap T E) : List Int :=
  (m.filter (fun kr =>
    decide (w.startPage ≤ kr.1) && decide (kr.1 ≤ w.endPage) &&
      isMissingStatus kr.2.status)).map Prod.fst

/-- A fresh `{ page, status: "loading" }` record. -/
def loadingRecord {T E : Type} (p : Int) : PageRecord T E :=
  { page := p, status := PageStatus.loading }

/-- The synchronous batch that marks every missing page as loading before any fetch
is issued (`if (!existing || existing.status !== "loading") next.set(page, ...)`). -/
def markLoading {T E : Type} (m : PagesMap T E) (missing : List Int) : PagesMap T E :=
  missing.foldl (fun acc p =>
    match lookupPage acc p with
    | some r => if r.status = PageStatus.loading then acc else mapSet acc p (loadingRecord p)
    | none => mapSet acc p (loadingRecord p)) m

/-- `loadPage`'s synchronous phase: skip when already loading, otherwise mark loading.
The boolean reports whether a fetch is issued (`shouldFetch`). -/
def loadPageStart {T E : Type} (m : PagesMap T E) (p : Int) : PagesMap T E × Bool :=
  match lookupPage m p with
  | some r =>
    if r.status = PageStatus.loading then (m, false)
    else (mapSet m p (loadingRecord p), true)
  | none => (mapSet m p (loadingRecord p), true)

/-- `loadPage`'s success continuation: commit only if the page is still tracked. -/
def loadPageCommitLoaded {T E : Type} (m : PagesMap T E) (p : Int) (items : List T) :
    PagesMap T E :=
  match lookupPage m p with
  | none => m
  | some _ => mapSet m p { page := p, status := PageStatus.loaded, items := some items }

/-- `loadPage`'s failure continuation: commit only if the page is still tracked. -/
def loadPageCommitError {T E : Type} (m : PagesMap T E) (p : Int) (e : E) : PagesMap T E :=
  match lookupPage m p with
  | none => m
  | some _ => mapSet m p { page := p, status := PageStatus.error, error := some e }

/-- Is some tracked page currently loading? (the aggregate `isFetching` sync). -/
def anyLoading {T E : Type} (m : PagesMap T E) : Bool :=
  m.any (fun kr => kr.2.status = PageStatus.loading)

/-! ### Hook state and operations (`useInfinitePaper`) -/

/-- The configuration options consumed by the hook (after applying defaults). -/
structure Config where
  pageSize : Int
  totalPages : Int
  windowSize : Int
  initialPage : Int
  prefetchThresholdPages : Int
deriving DecidableEq, Repr

/-- The hook's mutable state. -/
structure PaperState (T E : Type) where
  pageWindow : PageWindow
  currentPage : Int
  pages : PagesMap T E
  isFetching : Bool
  maxAccessiblePage : Int
  pendingJumpPage : Option Int
deriving DecidableEq, Repr

/-- Initial state of the hook: window centered on `initialPage`,
`maxAccessiblePage` starts at `initialPage`. -/
def initState (T E : Type) (cfg : Config) : PaperState T E :=
  { pageWindow := clampWindow cfg.initialPage cfg.totalPages (max 1 cfg.windowSize)
    currentPage := cfg.initialPage
    pages := []
    isFetching := false
    maxAccessiblePage := cfg.initialPage
    pendingJumpPage := none }

/-- `scrollToPage`: clamp the target, recenter the window, raise
`maxAccessiblePage`, record the pending jump; returns
`(targetGlobalIndex, targetWindowOffset)`. -/
def scrollToPageSt {T E : Type} (cfg : Config) (s : PaperState T E) (targetPage : Int) :
    PaperState T E × Int × Int :=
  let clamped := min (max 1 targetPage) cfg.totalPages
  let desiredWindow := clampWindow clamped cfg.totalPages (max 1 cfg.windowSize)
  ({ s with currentPage := clamped
            pageWindow := desiredWindow
            maxAccessiblePage := max s.maxAccessiblePage clamped
            pendingJumpPage := some clamped },
   (clamped - 1) * cfg.pageSize, (desiredWindow.startPage - 1) * cfg.pageSize)

/-- `reloadPage`: reset a tracked page to idle; no-op when not tracked. -/
def reloadPageSt {T E : Type} (s : PaperState T E) (p : Int) : PaperState T E :=
  match lookupPage s.pages p with
  | none => s
  | some _ => { s with pages := mapSet s.pages p { page := p, status := PageStatus.idle } }

/-- The reconciliation effect lifted to the hook state. -/
def reconcileStep {T E : Type} (s : PaperState T E) : PaperState T E :=
  { s with pages := reconcilePages s.pageWindow s.pages }

/-- One run of the fetch effect: collect missing pages, mark them loading
synchronously, report the issued fetches. -/
def fetchStep {T E : Type} (s : PaperState T E) : PaperState T E × List Int :=
  let missing := fetchMissing s.pageWindow s.pages
  if missing.isEmpty then (s, [])
  else ({ s with pages := markLoading s.pages missing, isFetching := true }, missing)

/-- The effect keeping `isFetching` in sync with the page statuses. -/
def syncFetchingStep {T E : Type} (s : PaperState T E) : PaperState T E :=
  { s with isFetching := anyLoading s.pages }

/-- `onVisibleBottom`: no-op when there is no next page or a fetch is in flight,
otherwise jump one page past the current/furthest page. -/
def onVisibleBottomSt {T E : Type} (cfg : Config) (s : PaperState T E) : PaperState T E :=
  if ¬s.maxAccessiblePage < cfg.totalPages ∨ s.isFetching = true then s
  else
    (scrollToPageSt cfg s
      (min cfg.totalPages (max (s.currentPage + 1) (s.maxAccessiblePage + 1)))).1

/-- The `indexType` argument of `handleVisibleRange`. -/
inductive IndexType where
  | auto
  | global
  | relative
deriving DecidableEq, Repr

/-- The auto-detection rule of `handleVisibleRange` (indexType = "auto"):
`true` means the raw pair is treated as global. -/
def autoIndicesAreGlobal (pageSize windowSize : Int) (w : PageWindow)
    (visibleStartIndex visibleStopIndex : Int) : Bool :=
  let windowLength := windowSize * pageSize
  let windowOffset := (w.startPage - 1) * pageSize
  let startFromWindow := windowOffset + visibleStartIndex
  let stopFromWindow := windowOffset + visibleStopIndex
  let indicesFitWindow :=
    decide (pageFromIndex startFromWindow pageSize ≥ w.startPage) &&
    decide (pageFromIndex stopFromWindow pageSize ≤ w.endPage)
  !indicesFitWindow || decide (visibleStartIndex ≥ windowLength) ||
    decide (visibleStopIndex ≥ windowLength)

/-- `handleVisibleRange`: resolve indices, pin a pending jump target, update the
current page and `maxAccessiblePage`, and jump or slide the window. -/
def handleVisibleRangeSt {T E : Type} (cfg : Config) (s : PaperState T E)
    (visibleStartIndex visibleStopIndex : Int) (indexType : IndexType) : PaperState T E :=
  let windowOffset := (s.pageWindow.startPage - 1) * cfg.pageSize
  let resolved : Int × Int :=
    match indexType with
    | IndexType.global => (visibleStartIndex, visibleStopIndex)
    | IndexType.relative =>
        (windowOffset + visibleStartIndex, windowOffset + visibleStopIndex)
    | IndexType.auto =>
        if autoIndicesAreGlobal cfg.pageSize cfg.windowSize s.pageWindow
            visibleStartIndex visibleStopIndex
        then (visibleStartIndex, visibleStopIndex)
        else (windowOffset + visibleStartIndex, windowOffset + visibleStopIndex)
  let topPage := pageFromIndex resolved.1 cfg.pageSize
  let bottomPage := pageFromIndex resolved.2 cfg.pageSize
  let pagesFitWindow :=
    s.pageWindow.startPage ≤ topPage ∧ bottomPage ≤ s.pageWindow.endPage
  let pendingHit : Option Int :=
    match s.pendingJumpPage with
    | some pj => if pj ≠ 0 ∧ topPage ≤ pj ∧ pj ≤ bottomPage then some pj else none
    | none => none
  let nextPage := match pendingHit with | some pj => pj | none => topPage
  let pendingAfter : Option Int :=
    match pendingHit with | some _ => none | none => s.pendingJumpPage
  let newMax := max s.maxAccessiblePage (min cfg.totalPages (max topPage bottomPage))
  let nearTop := topPage < s.pageWindow.startPage + cfg.prefetchThresholdPages
  let nearBottom := bottomPage > s.pageWindow.endPage - cfg.prefetchThresholdPages
  let newWindow :=
    if ¬pagesFitWindow then
      clampWindow nextPage cfg.totalPages (max 1 cfg.windowSize)
    else if nearTop ∧ 1 < s.pageWindow.startPage then
      clampWindow (max 1 topPage) cfg.totalPages (max 1 cfg.windowSize)
    else if nearBottom ∧ s.pageWindow.endPage < cfg.totalPages then
      clampWindow (min cfg.totalPages bottomPage) cfg.totalPages (max 1 cfg.windowSize)
    else s.pageWindow
  { s with currentPage := nextPage
           maxAccessiblePage := newMax
           pageWindow := newWindow
           pendingJumpPage := pendingAfter }

/-- `PaperItem<T>` from the source. -/
structure PaperItem (T : Type) where
  page : Int
  indexInPage : Int
  globalIndex : Int
  item : Option T
  isPlaceholder : Bool
deriving DecidableEq, Repr

/-- The `items` projection: for every page of the window and every in-page index,
emit the stored item or a placeholder slot. -/
def itemsProjection {T E : Type} (pageSize : Int) (w : PageWindow) (m : PagesMap T E) :
    List (PaperItem T) :=
  let windowOffset := (w.startPage - 1) * pageSize
  (List.range (w.endPage - w.startPage + 1).toNat).flatMap (fun (pi : Nat) =>
    (List.range pageSize.toNat).map (fun (i : Nat) =>
      let page := w.startPage + (pi : Int)
      let record := lookupPage m page
      let item := record.bind (fun r => r.items.bind (fun l => l.get? i))
      { page := page
        indexInPage := (i : Int)
        globalIndex := windowOffset + (pi : Int) * (pageSize.toNat : Int) + (i : Int)
        item := item
        isPlaceholder :=
          match record with
          | none => true
          | some r => decide (¬r.status = PageStatus.loaded) || item.isNone }))

/-- A `scrollToPage` call together with the effect cascade React runs after it:
when the window bounds are unchanged no effect dependency changed, so no effect
runs; otherwise reconcile, fetch and the `isFetching` sync run. The second
component is the list of pages for which `fetchPage` is invoked. -/
def turnScroll {T E : Type} (cfg : Config) (s : PaperState T E) (targetPage : Int) :
    PaperState T E × List Int :=
  let s1 := (scrollToPageSt cfg s targetPage).1
  if s1.pageWindow = s.pageWindow then (s1, [])
  else
    let s2 := reconcileStep s1
    let fr := fetchStep s2
    (syncFetchingStep fr.1, fr.2)

/-- One externally triggered transition of the hook state. -/
inductive Step {T E : Type} (cfg : Config) : PaperState T E → PaperState T E → Prop where
  | scroll (s : PaperState T E) (p : Int) : Step cfg s (scrollToPageSt cfg s p).1
  | visibleRange (s : PaperState T E) (si so : Int) (k : IndexType) :
      Step cfg s (handleVisibleRangeSt cfg s si so k)
  | reconcile (s : PaperState T E) : Step cfg s (reconcileStep s)
  | fetch (s : PaperState T E) : Step cfg s (fetchStep s).1
  | syncFetching (s : PaperState T E) : Step cfg s (syncFetchingStep s)
  | reload (s : PaperState T E) (p : Int) : Step cfg s (reloadPageSt s p)
  | visibleBottom (s : PaperState T E) : Step cfg s (onVisibleBottomSt cfg s)
  | commitLoaded (s : PaperState T E) (p : Int) (items : List T) :
      Step cfg s { s with pages := loadPageCommitLoaded s.pages p items }
  | commitError (s : PaperState T E) (p : Int) (e : E) :
      Step cfg s { s with pages := loadPageCommitError s.pages p e }

/-- States reachable from initialization through the hook's operations. -/
inductive Reachable {T E : Type} (cfg : Config) : PaperState T E → Prop where
  | init : Reachable cfg (initState T E cfg)
  | step {s s' : PaperState T E} : Reachable cfg s → Step cfg s s' → Reachable cfg s'

/-! ### C1: the page window invariant -/

theorem scrollToPageSt_pageWindow {T E : Type} (cfg : Config) (s : PaperState T E)
    (p : Int) :
    (scrollToPageSt cfg s p).1.pageWindow =
      clampWindow (min (max 1 p) cfg.totalPages) cfg.totalPages (max 1 cfg.windowSize) := rfl

theorem step_window_cases {T E : Type} (cfg : Config) {s s' : PaperState T E}
    (h : Step cfg s s') :
    s'.pageWindow = s.pageWindow ∨
    ∃ t, s'.pageWindow = clampWindow t cfg.totalPages (max 1 cfg.windowSize) := by
  cases h with
  | scroll p => exact Or.inr ⟨_, rfl⟩
  | visibleRange si so k =>
    simp only [handleVisibleRangeSt]
    split_ifs <;> first | exact Or.inl rfl | exact Or.inr ⟨_, rfl⟩
  | reconcile => exact Or.inl rfl
  | fetch =>
    simp only [fetchStep]
    split_ifs <;> exact Or.inl rfl
  | syncFetching => exact Or.inl rfl
  | reload p =>
    simp only [reloadPageSt]
    split <;> exact Or.inl rfl
  | visibleBottom =>
    simp only [onVisibleBottomSt]
    split_ifs <;> first | exact Or.inl rfl | exact Or.inr ⟨_, rfl⟩
  | commitLoaded p items => exact Or.inl rfl
  | commitError p e => exact Or.inl rfl

/-- C1: in every reachable state of a configuration with `totalPages ≥ 1` and
`windowSize ≥ 1` (so in particular after initialization and after every
`handleVisibleRange` or `scrollToPage`), the page window is a single contiguous
inclusive range with `1 ≤ startPage ≤ endPage ≤ totalPages` and
`endPage − startPage + 1 ≤ windowSize`. -/
theorem pageWindow_invariant {T E : Type} (cfg : Config)
    (htp : 1 ≤ cfg.totalPages) (hws : 1 ≤ cfg.windowSize)
    (s : PaperState T E) (h : Reachable cfg s) :
    1 ≤ s.pageWindow.startPage ∧
    s.pageWindow.startPage ≤ s.pageWindow.endPage ∧
    s.pageWindow.endPage ≤ cfg.totalPages ∧
    s.pageWindow.endPage - s.pageWindow.startPage + 1 ≤ cfg.windowSize := by
  induction h with
  | init =>
    simp only [initState]
    obtain ⟨h1, h2, h3, h4⟩ := clampWindow_bounds cfg.initialPage cfg.totalPages
      (max 1 cfg.windowSize) htp (le_max_left 1 _)
    exact ⟨h1, h2, h3, by omega⟩
  | step _ hstep ih =>
    rcases step_window_cases cfg hstep with heq | ⟨t, heq⟩
    · rw [heq]; exact ih
    · rw [heq]
      obtain ⟨h1, h2, h3, h4⟩ := clampWindow_bounds t cfg.totalPages
        (max 1 cfg.windowSize) htp (le_max_left 1 _)
      exact ⟨h1, h2, h3, by omega⟩

/-- Closed witness for `pageWindow_invariant`: the initial state of the
configuration `pageSize = 2, totalPages = 5, windowSize = 3, initialPage = 1`. -/
theorem pageWindow_invariant_witness :
    1 ≤ (initState Nat Unit
        { pageSize := 2, totalPages := 5, windowSize := 3,
          initialPage := 1, prefetchThresholdPages := 1 }).pageWindow.startPage ∧
    (initState Nat Unit
        { pageSize := 2, totalPages := 5, windowSize := 3,
          initialPage := 1, prefetchThresholdPages := 1 }).pageWindow.startPage ≤
      (initState Nat Unit
        { pageSize := 2, totalPages := 5, windowSize := 3,
          initialPage := 1, prefetchThresholdPages := 1 }).pageWindow.endPage ∧
    (initState Nat Unit
        { pageSize := 2, totalPages := 5, windowSize := 3,
          initialPage := 1, prefetchThresholdPages := 1 }).pageWindow.endPage ≤ 5 ∧
    (initState Nat Unit
        { pageSize := 2, totalPages := 5, windowSize := 3,
          initialPage := 1, prefetchThresholdPages := 1 }).pageWindow.endPage -
      (initState Nat Unit
        { pageSize := 2, totalPages := 5, windowSize := 3,
          initialPage := 1, prefetchThresholdPages := 1 }).pageWindow.startPage + 1 ≤ 3 :=
  pageWindow_invariant
    { pageSize := 2, totalPages := 5, windowSize := 3,
      initialPage := 1, prefetchThresholdPages := 1 }
    (by norm_num) (by norm_num) _ Reachable.init

/-! ### C6: scrollToPage lands inside the recomputed window -/

/-- C6: immediately after `scrollToPage(p)` with `totalPages ≥ 1` and
`windowSize ≥ 1`, `currentPage` equals `clamp(p, 1, totalPages)` and the page
window contains that clamped target (hence contains `p` whenever
`1 ≤ p ≤ totalPages`). -/
theorem scrollToPage_window_contains {T E : Type} (cfg : Config)
    (htp : 1 ≤ cfg.totalPages) (hws : 1 ≤ cfg.windowSize)
    (s : PaperState T E) (p : Int) :
    (scrollToPageSt cfg s p).1.currentPage = min (max 1 p) cfg.totalPages ∧
    (scrollToPageSt cfg s p).1.pageWindow.startPage ≤ min (max 1 p) cfg.totalPages ∧
    min (max 1 p) cfg.totalPages ≤ (scrollToPageSt cfg s p).1.pageWindow.endPage := by
  refine ⟨rfl, ?_⟩
  rw [scrollToPageSt_pageWindow]
  exact clampWindow_mem _ _ _ (by omega) (by omega) (le_max_left 1 _)

/-- Closed witness for `scrollToPage_window_contains`:
`scrollToPage 7` on the initial state of a 5-page configuration. -/
theorem scrollToPage_window_contains_witness :
    (scrollToPageSt
        { pageSize := 2, totalPages := 5, windowSize := 3,
          initialPage := 1, prefetchThresholdPages := 1 }
        (initState Nat Unit
          { pageSize := 2, totalPages := 5, windowSize := 3,
            initialPage := 1, prefetchThresholdPages := 1 }) 7).1.currentPage =
      min (max 1 7) 5 ∧
    (scrollToPageSt
        { pageSize := 2, totalPages := 5, windowSize := 3,
          initialPage := 1, prefetchThresholdPages := 1 }
        (initState Nat Unit
          { pageSize := 2, totalPages := 5, windowSize := 3,
            initialPage := 1, prefetchThresholdPages := 1 }) 7).1.pageWindow.startPage ≤
      min (max 1 7) 5 ∧
    min (max 1 7) 5 ≤
      (scrollToPageSt
        { pageSize := 2, totalPages := 5, windowSize := 3,
          initialPage := 1, prefetchThresholdPages := 1 }
        (initState Nat Unit
          { pageSize := 2, totalPages := 5, windowSize := 3,
            initialPage := 1, prefetchThresholdPages := 1 }) 7).1.pageWindow.endPage :=
  scrollToPage_window_contains _ (by norm_num) (by norm_num) _ 7

/-! ### C5: maxAccessiblePage monotonicity and bound -/

/-- C5 counterexample: with `initialPage = 5` and `totalPages = 3` (a configuration
the option type allows), `maxAccessiblePage` already exceeds `totalPages` in the
initial state, before any operation runs. -/
theorem maxAccessible_exceeds_totalPages_counterexample :
    (initState Nat Unit
      { pageSize := 1, totalPages := 3, windowSize := 2,
        initialPage := 5, prefetchThresholdPages := 1 }).maxAccessiblePage = 5 ∧
    ¬(initState Nat Unit
      { pageSize := 1, totalPages := 3, windowSize := 2,
        initialPage := 5, prefetchThresholdPages := 1 }).maxAccessiblePage ≤
        (3 : Int) := by
  refine ⟨rfl, ?_⟩
  decide

theorem step_maxAccessible_mono {T E : Type} (cfg : Config) {s s' : PaperState T E}
    (h : Step cfg s s') : s.maxAccessiblePage ≤ s'.maxAccessiblePage := by
  cases h with
  | scroll p => exact le_max_left _ _
  | visibleRange si so k => exact le_max_left _ _
  | reconcile => exact le_refl _
  | fetch =>
    simp only [fetchStep]
    split_ifs <;> exact le_refl _
  | syncFetching => exact le_refl _
  | reload p =>
    simp only [reloadPageSt]
    split <;> exact le_refl _
  | visibleBottom =>
    simp only [onVisibleBottomSt]
    split_ifs with h
    · exact le_refl _
    · exact le_max_left _ _
  | commitLoaded p items => exact le_refl _
  | commitError p e => exact le_refl _

theorem step_maxAccessible_le_totalPages {T E : Type} (cfg : Config)
    {s s' : PaperState T E} (h : Step cfg s s')
    (hs : s.maxAccessiblePage ≤ cfg.totalPages) :
    s'.maxAccessiblePage ≤ cfg.totalPages := by
  cases h with
  | scroll p =>
    simp only [scrollToPageSt]
    omega
  | visibleRange si so k =>
    simp only [handleVisibleRangeSt]
    omega
  | reconcile => exact hs
  | fetch =>
    simp only [fetchStep]
    split_ifs <;> exact hs
  | syncFetching => exact hs
  | reload p =>
    simp only [reloadPageSt]
    split <;> exact hs
  | visibleBottom =>
    simp only [onVisibleBottomSt, scrollToPageSt]
    split_ifs with h
    · exact hs
    · dsimp only
      omega
  | commitLoaded p items => exact hs
  | commitError p e => exact hs

/-- C5 amended: `maxAccessiblePage` is non-decreasing under every operation; it
never exceeds `totalPages` provided the configuration starts with
`initialPage ≤ totalPages` (the unamended bound fails because the initial value
is `initialPage`, not clamped to `totalPages`). -/
theorem maxAccessible_monotone_amended {T E : Type} (cfg : Config) :
    (∀ s s' : PaperState T E, Step cfg s s' →
      s.maxAccessiblePage ≤ s'.maxAccessiblePage) ∧
    (cfg.initialPage ≤ cfg.totalPages →
      ∀ s : PaperState T E, Reachable cfg s → s.maxAccessiblePage ≤ cfg.totalPages) := by
  refine ⟨fun s s' h => step_maxAccessible_mono cfg h, fun hinit s h => ?_⟩
  induction h with
  | init => exact hinit
  | step _ hstep ih => exact step_maxAccessible_le_totalPages cfg hstep ih

/-- Closed witness for `maxAccessible_monotone_amended`: a concrete scroll step is
monotone, and the initial state of a well-formed configuration respects the bound. -/
theorem maxAccessible_monotone_amended_witness :
    ((initState Nat Unit
        { pageSize := 2, totalPages := 5, windowSize := 3,
          initialPage := 1, prefetchThresholdPages := 1 }).maxAccessiblePage ≤
      (scrollToPageSt
        { pageSize := 2, totalPages := 5, windowSize := 3,
          initialPage := 1, prefetchThresholdPages := 1 }
        (initState Nat Unit
          { pageSize := 2, totalPages := 5, windowSize := 3,
            initialPage := 1, prefetchThresholdPages := 1 }) 4).1.maxAccessiblePage) ∧
    (initState Nat Unit
        { pageSize := 2, totalPages := 5, windowSize := 3,
          initialPage := 1, prefetchThresholdPages := 1 }).maxAccessiblePage ≤ 5 :=
  ⟨(maxAccessible_monotone_amended _).1 _ _ (Step.scroll _ 4),
    (maxAccessible_monotone_amended
      { pageSize := 2, totalPages := 5, windowSize := 3,
        initialPage := 1, prefetchThresholdPages := 1 }).2 (by norm_num) _ Reachable.init⟩

/-! ### C9: the infinite-scroll sentinel handler -/

/-- C9: `onVisibleBottom` is a no-op when `maxAccessiblePage ≥ totalPages` or a
fetch is in flight; otherwise it behaves exactly as
`scrollToPage(min(totalPages, max(currentPage + 1, maxAccessiblePage + 1)))`,
and (whenever `currentPage ≤ maxAccessiblePage`) it advances
`maxAccessiblePage` by at most one. -/
theorem onVisibleBottom_gate {T E : Type} (cfg : Config) (s : PaperState T E) :
    (cfg.totalPages ≤ s.maxAccessiblePage ∨ s.isFetching = true →
      onVisibleBottomSt cfg s = s) ∧
    (s.maxAccessiblePage < cfg.totalPages → s.isFetching = false →
      onVisibleBottomSt cfg s =
        (scrollToPageSt cfg s
          (min cfg.totalPages (max (s.currentPage + 1) (s.maxAccessiblePage + 1)))).1) ∧
    (s.currentPage ≤ s.maxAccessiblePage → 1 ≤ s.maxAccessiblePage →
      (onVisibleBottomSt cfg s).maxAccessiblePage ≤ s.maxAccessiblePage + 1) := by
  refine ⟨?_, ?_, ?_⟩
  · intro h
    simp only [onVisibleBottomSt]
    rw [if_pos]
    rcases h with h | h
    · exact Or.inl (by omega)
    · exact Or.inr h
  · intro h1 h2
    simp only [onVisibleBottomSt]
    rw [if_neg]
    push_neg
    exact ⟨by omega, by simp [h2]⟩
  · intro hcur hpos
    simp only [onVisibleBottomSt, scrollToPageSt]
    split_ifs with h
    · omega
    · dsimp only
      omega

/-- Closed witness for `onVisibleBottom_gate`: both the active branch (fresh
state, `max < totalPages`) and the no-op branch (`max = totalPages`). -/
theorem onVisibleBottom_gate_witness :
    onVisibleBottomSt
        { pageSize := 2, totalPages := 5, windowSize := 3,
          initialPage := 1, prefetchThresholdPages := 1 }
        (initState Nat Unit
          { pageSize := 2, totalPages := 5, windowSize := 3,
            initialPage := 1, prefetchThresholdPages := 1 }) =
      (scrollToPageSt
        { pageSize := 2, totalPages := 5, windowSize := 3,
          initialPage := 1, prefetchThresholdPages := 1 }
        (initState Nat Unit
          { pageSize := 2, totalPages := 5, windowSize := 3,
            initialPage := 1, prefetchThresholdPages := 1 })
        (min 5 (max (1 + 1) (1 + 1)))).1 ∧
    onVisibleBottomSt
        { pageSize := 2, totalPages := 5, windowSize := 3,
          initialPage := 5, prefetchThresholdPages := 1 }
        (initState Nat Unit
          { pageSize := 2, totalPages := 5, windowSize := 3,
            initialPage := 5, prefetchThresholdPages := 1 }) =
      initState Nat Unit
        { pageSize := 2, totalPages := 5, windowSize := 3,
          initialPage := 5, prefetchThresholdPages := 1 } ∧
    (onVisibleBottomSt
        { pageSize := 2, totalPages := 5, windowSize := 3,
          initialPage := 1, prefetchThresholdPages := 1 }
        (initState Nat Unit
          { pageSize := 2, totalPages := 5, windowSize := 3,
            initialPage := 1, prefetchThresholdPages := 1 })).maxAccessiblePage ≤ 1 + 1 :=
  ⟨(onVisibleBottom_gate _ _).2.1 (by norm_num [initState]) rfl,
    (onVisibleBottom_gate _ _).1 (Or.inl (by norm_num [initState])),
    (onVisibleBottom_gate
      { pageSize := 2, totalPages := 5, windowSize := 3,
        initialPage := 1, prefetchThresholdPages := 1 }
      (initState Nat Unit
        { pageSize := 2, totalPages := 5, windowSize := 3,
          initialPage := 1, prefetchThresholdPages := 1 })).2.2
      (by norm_num [initState]) (by norm_num [initState])⟩

/-! ### C3: stale fetch completions are rejected -/

/-- C3: a fetch completion (success or failure) for a page that is no longer
tracked in the pages map leaves the map unchanged: it neither re-adds the
evicted page nor mutates any other record. -/
theorem staleCommit_noop {T E : Type} (m : PagesMap T E) (p : Int)
    (items : List T) (e : E) (h : lookupPage m p = none) :
    loadPageCommitLoaded m p items = m ∧ loadPageCommitError m p e = m := by
  unfold loadPageCommitLoaded loadPageCommitError
  rw [h]
  exact ⟨rfl, rfl⟩

/-- Closed witness for `staleCommit_noop`: committing page 2 into a map that only
tracks page 1 changes nothing. -/
theorem staleCommit_noop_witness :
    loadPageCommitLoaded
        ([(1, { page := 1, status := PageStatus.loading })] : PagesMap Nat Unit)
        2 [7] =
      [(1, { page := 1, status := PageStatus.loading })] ∧
    loadPageCommitError
        ([(1, { page := 1, status := PageStatus.loading })] : PagesMap Nat Unit)
        2 () =
      [(1, { page := 1, status := PageStatus.loading })] :=
  staleCommit_noop _ 2 [7] () (by decide)

/-! ### C10: totality of clampWindow at totalPages = 0 -/

/-- C10: for `totalPages = 0` and any `windowSize ≥ 1` and target page,
`clampWindow` returns the degenerate range `startPage = 1, endPage = 0`
(with `startPage > endPage`), and the item projection over that window is
the empty list. -/
theorem clampWindow_zero_total {T E : Type} (t ws pageSize : Int) (hws : 1 ≤ ws)
    (m : PagesMap T E) :
    clampWindow t 0 ws = { startPage := 1, endPage := 0 } ∧
    ¬(clampWindow t 0 ws).startPage ≤ (clampWindow t 0 ws).endPage ∧
    itemsProjection pageSize (clampWindow t 0 ws) m = [] := by
  have h := clampWindow_degenerate t ws hws
  refine ⟨h, by rw [h]; norm_num, ?_⟩
  rw [h]
  simp [itemsProjection]

/-- Closed witness for `clampWindow_zero_total` at `targetPage = 3`,
`windowSize = 2`, `pageSize = 4`, empty map. -/
theorem clampWindow_zero_total_witness :
    clampWindow 3 0 2 = { startPage := 1, endPage := 0 } ∧
    ¬(clampWindow 3 0 2).startPage ≤ (clampWindow 3 0 2).endPage ∧
    itemsProjection 4 (clampWindow 3 0 2) ([] : PagesMap Nat Unit) = [] :=
  clampWindow_zero_total 3 2 4 (by norm_num) []

/-! ### C8: idempotence of repeated scrollToPage turns -/

theorem PaperState.fieldsEq {T E : Type} {a b : PaperState T E}
    (h1 : a.pageWindow = b.pageWindow) (h2 : a.currentPage = b.currentPage)
    (h3 : a.pages = b.pages) (h4 : a.isFetching = b.isFetching)
    (h5 : a.maxAccessiblePage = b.maxAccessiblePage)
    (h6 : a.pendingJumpPage = b.pendingJumpPage) : a = b := by
  cases a; cases b; simp_all

theorem turnScroll_fields {T E : Type} (cfg : Config) (s : PaperState T E) (p : Int) :
    (turnScroll cfg s p).1.currentPage = min (max 1 p) cfg.totalPages ∧
    (turnScroll cfg s p).1.pageWindow =
      clampWindow (min (max 1 p) cfg.totalPages) cfg.totalPages (max 1 cfg.windowSize) ∧
    (turnScroll cfg s p).1.maxAccessiblePage =
      max s.maxAccessiblePage (min (max 1 p) cfg.totalPages) ∧
    (turnScroll cfg s p).1.pendingJumpPage = some (min (max 1 p) cfg.totalPages) := by
  simp only [turnScroll, syncFetchingStep, fetchStep, reconcileStep, scrollToPageSt]
  split_ifs <;> exact ⟨rfl, rfl, rfl, rfl⟩

theorem scrollToPageSt_after_turn {T E : Type} (cfg : Config) (s : PaperState T E)
    (p : Int) :
    (scrollToPageSt cfg (turnScroll cfg s p).1 p).1 = (turnScroll cfg s p).1 := by
  obtain ⟨h1, h2, h3, h4⟩ := turnScroll_fields cfg s p
  set t := (turnScroll cfg s p).1 with ht
  refine PaperState.fieldsEq ?_ ?_ rfl rfl ?_ ?_
  · show clampWindow (min (max 1 p) cfg.totalPages) cfg.totalPages
      (max 1 cfg.windowSize) = t.pageWindow
    rw [h2]
  · show min (max 1 p) cfg.totalPages = t.currentPage
    rw [h1]
  · show max t.maxAccessiblePage (min (max 1 p) cfg.totalPages) = t.maxAccessiblePage
    rw [h3]
    omega
  · show some (min (max 1 p) cfg.totalPages) = t.pendingJumpPage
    rw [h4]

/-- C8: calling `scrollToPage` a second time with the same target (in particular
with the already-current page) right after a completed `scrollToPage` turn leaves
the state (current page, window, `maxAccessiblePage`, pages) unchanged and issues
no `fetchPage` request: no effect re-runs because no window bound changed. -/
theorem scrollToPage_idempotent {T E : Type} (cfg : Config) (s : PaperState T E)
    (p : Int) (hp : p = s.currentPage) :
    turnScroll cfg (turnScroll cfg s p).1 p = ((turnScroll cfg s p).1, []) := by
  have hb := scrollToPageSt_after_turn cfg s p
  set t := (turnScroll cfg s p).1 with ht
  show turnScroll cfg t p = (t, [])
  simp [turnScroll, hb]

/-- Closed witness for `scrollToPage_idempotent`: repeating `scrollToPage 1`
(the current page) on a fresh 5-page session changes nothing and fetches nothing. -/
theorem scrollToPage_idempotent_witness :
    turnScroll
        { pageSize := 2, totalPages := 5, windowSize := 3,
          initialPage := 1, prefetchThresholdPages := 1 }
        (turnScroll
          { pageSize := 2, totalPages := 5, windowSize := 3,
            initialPage := 1, prefetchThresholdPages := 1 }
          (initState Nat Unit
            { pageSize := 2, totalPages := 5, windowSize := 3,
              initialPage := 1, prefetchThresholdPages := 1 }) 1).1 1 =
      ((turnScroll
          { pageSize := 2, totalPages := 5, windowSize := 3,
            initialPage := 1, prefetchThresholdPages := 1 }
          (initState Nat Unit
            { pageSize := 2, totalPages := 5, windowSize := 3,
              initialPage := 1, prefetchThresholdPages := 1 }) 1).1, []) :=
  scrollToPage_idempotent _ _ 1 rfl

/-! ### C4: fetch deduplication -/

theorem isMissingStatus_iff (st : PageStatus) :
    isMissingStatus st = true ↔ st = PageStatus.idle ∨ st = PageStatus.error := by
  cases st <;> simp [isMissingStatus]

theorem lookup_eq_of_mem_nodup {T E : Type} {m : PagesMap T E}
    {e : Int × PageRecord T E} (hnd : (m.map Prod.fst).Nodup) (he : e ∈ m) :
    lookupPage m e.1 = some e.2 := by
  induction m with
  | nil => cases he
  | cons kv rest ih =>
    obtain ⟨k, v⟩ := kv
    simp only [List.map_cons, List.nodup_cons] at hnd
    rcases List.mem_cons.1 he with rfl | he
    · simp [lookupPage]
    · have hk : k ≠ e.1 := by
        intro h
        exact hnd.1 (h ▸ List.mem_map_of_mem Prod.fst he)
      simp only [lookupPage, if_neg hk]
      exact ih hnd.2 he

theorem mem_mapSet {T E : Type} {m : PagesMap T E} {p : Int} {r : PageRecord T E}
    {e : Int × PageRecord T E} (hnd : (m.map Prod.fst).Nodup)
    (he : e ∈ mapSet m p r) :
    e = (p, r) ∨ (e ∈ m ∧ e.1 ≠ p) := by
  induction m with
  | nil =>
    simp only [mapSet, List.mem_singleton] at he
    exact Or.inl he
  | cons kv rest ih =>
    obtain ⟨k, v⟩ := kv
    simp only [List.map_cons, List.nodup_cons] at hnd
    simp only [mapSet] at he
    by_cases hk : k = p
    · rw [if_pos hk] at he
      rcases List.mem_cons.1 he with he | he
      · exact Or.inl he
      · refine Or.inr ⟨List.mem_cons_of_mem _ he, ?_⟩
        intro hep
        exact hnd.1 (hk ▸ hep ▸ List.mem_map_of_mem Prod.fst he)
    · rw [if_neg hk] at he
      rcases List.mem_cons.1 he with he | he
      · exact Or.inr ⟨he ▸ List.mem_cons_self _ _, he ▸ hk⟩
      · rcases ih hnd.2 he with h | ⟨hm, hne⟩
        · exact Or.inl h
        · exact Or.inr ⟨List.mem_cons_of_mem _ hm, hne⟩

theorem mapSet_keys {T E : Type} (m : PagesMap T E) (p : Int) (r : PageRecord T E) :
    (mapSet m p r).map Prod.fst =
      if p ∈ m.map Prod.fst then m.map Prod.fst else m.map Prod.fst ++ [p] := by
  induction m with
  | nil => simp [mapSet]
  | cons kv rest ih =>
    obtain ⟨k, v⟩ := kv
    simp only [mapSet, List.map_cons]
    by_cases hk : k = p
    · rw [if_pos hk, if_pos (by simp [hk])]
      simp [hk]
    · rw [if_neg hk]
      simp only [List.map_cons, ih]
      by_cases hp : p ∈ rest.map Prod.fst
      · rw [if_pos hp, if_pos (by simp [hp])]
      · have hcons : ¬p ∈ (k : Int) :: rest.map Prod.fst := by
          simp only [List.mem_cons]
          rintro (h | h)
          · exact hk h.symm
          · exact hp h
        rw [if_neg hp, if_neg hcons]
        simp

theorem mapSet_keys_nodup {T E : Type} {m : PagesMap T E} (p : Int) (r : PageRecord T E)
    (hnd : (m.map Prod.fst).Nodup) : ((mapSet m p r).map Prod.fst).Nodup := by
  rw [mapSet_keys]
  split_ifs with hp
  · exact hnd
  · refine List.Nodup.append hnd (List.nodup_singleton p) ?_
    intro a ha hb
    rw [List.mem_singleton] at hb
    exact hp (hb ▸ ha)

theorem markLoading_entries {T E : Type} (L : List Int) (m : PagesMap T E)
    (hnd : (m.map Prod.fst).Nodup) {e : Int × PageRecord T E}
    (he : e ∈ markLoading m L) :
    (e.1 ∈ L ∧ e.2.status = PageStatus.loading) ∨ (e ∈ m ∧ ¬e.1 ∈ L) := by
  induction L generalizing m with
  | nil =>
    simp only [markLoading, List.foldl_nil] at he
    exact Or.inr ⟨he, by simp⟩
  | cons p L ih =>
    simp only [markLoading, List.foldl_cons] at he
    set m1 : PagesMap T E :=
      (match lookupPage m p with
        | some r => if r.status = PageStatus.loading then m else mapSet m p (loadingRecord p)
        | none => mapSet m p (loadingRecord p)) with hm1
    have hnd1 : (m1.map Prod.fst).Nodup := by
      rw [hm1]
      split
      · split_ifs
        · exact hnd
        · exact mapSet_keys_nodup _ _ hnd
      · exact mapSet_keys_nodup _ _ hnd
    have he1 : e ∈ markLoading m1 L := he
    rcases ih m1 hnd1 he1 with ⟨hL, hst⟩ | ⟨hm, hnL⟩
    · exact Or.inl ⟨List.mem_cons_of_mem _ hL, hst⟩
    · rw [hm1] at hm
      revert hm
      split
      · rename_i r hr
        split_ifs with hload
        · intro hm
          by_cases hep : e.1 = p
          · left
            have hl := lookup_eq_of_mem_nodup hnd hm
            rw [hep, hr] at hl
            refine ⟨hep ▸ List.mem_cons_self _ _, ?_⟩
            rw [← Option.some_inj.mp hl]
            exact hload
          · right
            exact ⟨hm, by simp [List.mem_cons, hep, hnL]⟩
        · intro hm
          rcases mem_mapSet hnd hm with hpr | ⟨hmm, hne⟩
          · left
            rw [hpr]
            exact ⟨List.mem_cons_self _ _, rfl⟩
          · right
            exact ⟨hmm, by simp [List.mem_cons, hne, hnL]⟩
      · intro hm
        rcases mem_mapSet hnd hm with hpr | ⟨hmm, hne⟩
        · left
          rw [hpr]
          exact ⟨List.mem_cons_self _ _, rfl⟩
        · right
          exact ⟨hmm, by simp [List.mem_cons, hne, hnL]⟩

/-- C4 amended: the fetch effect only ever issues a fetch for a tracked, in-window
page whose status is idle or error, and it marks every such page loading in the
same synchronous pass, so an immediately repeated reconciliation issues nothing:
a page is never re-fetched while it is loading. (The unamended claim fails
because an error completion makes the page missing again, so it is re-fetched
without `reloadPage`.) -/
theorem fetch_dedup_amended {T E : Type} (s : PaperState T E)
    (hnd : (s.pages.map Prod.fst).Nodup) :
    (∀ p ∈ (fetchStep s).2, ∃ r, lookupPage s.pages p = some r ∧
      (r.status = PageStatus.idle ∨ r.status = PageStatus.error) ∧
      s.pageWindow.startPage ≤ p ∧ p ≤ s.pageWindow.endPage) ∧
    (fetchStep (fetchStep s).1).2 = [] := by
  constructor
  · intro p hp
    have hmem : p ∈ fetchMissing s.pageWindow s.pages := by
      revert hp
      simp only [fetchStep]
      split_ifs with h
      · intro hp
        exact absurd hp (List.not_mem_nil p)
      · intro hp
        exact hp
    obtain ⟨e, hef, hfst⟩ := List.mem_map.1 hmem
    obtain ⟨hem, hpred⟩ := List.mem_filter.1 hef
    simp only [Bool.and_eq_true, decide_eq_true_eq] at hpred
    obtain ⟨⟨h1, h2⟩, h3⟩ := hpred
    refine ⟨e.2, ?_, isMissingStatus_iff _ |>.1 h3, hfst ▸ h1, hfst ▸ h2⟩
    rw [← hfst]
    exact lookup_eq_of_mem_nodup hnd hem
  · by_cases h : (fetchMissing s.pageWindow s.pages).isEmpty
    · have h1 : (fetchStep s).1 = s := by
        simp only [fetchStep, if_pos h]
      rw [h1]
      simp only [fetchStep, if_pos h]
    · have h1 : (fetchStep s).1 =
          { s with pages := markLoading s.pages (fetchMissing s.pageWindow s.pages),
                   isFetching := true } := by
        simp only [fetchStep, if_neg h]
      rw [h1]
      have hempty : fetchMissing s.pageWindow
          (markLoading s.pages (fetchMissing s.pageWindow s.pages)) = [] := by
        unfold fetchMissing
        rw [List.filter_eq_nil.2, List.map_nil]
        intro e he
        rcases markLoading_entries _ _ hnd he with ⟨_, hst⟩ | ⟨hm, hnL⟩
        · simp [hst, isMissingStatus]
        · simp only [Bool.and_eq_true, decide_eq_true_eq, not_and]
          intro h12 h3
          exact absurd
            (List.mem_map_of_mem Prod.fst
              (List.mem_filter.2 ⟨hm, by
                simp only [Bool.and_eq_true, decide_eq_true_eq]
                exact ⟨h12, h3⟩⟩))
            hnL
      simp only [fetchStep, hempty]
      rfl

/-- Closed witness for `fetch_dedup_amended`: a one-page window with an idle
record issues exactly that page and nothing on the repeated run. -/
theorem fetch_dedup_amended_witness :
    (∀ p ∈ (fetchStep
        { pageWindow := { startPage := 1, endPage := 1 }, currentPage := 1,
          pages := [(1, { page := 1, status := PageStatus.idle })],
          isFetching := false, maxAccessiblePage := 1,
          pendingJumpPage := none : PaperState Nat Unit }).2,
      ∃ r, lookupPage
          ([(1, { page := 1, status := PageStatus.idle })] : PagesMap Nat Unit) p =
            some r ∧
        (r.status = PageStatus.idle ∨ r.status = PageStatus.error) ∧
        (1 : Int) ≤ p ∧ p ≤ 1) ∧
    (fetchStep (fetchStep
        { pageWindow := { startPage := 1, endPage := 1 }, currentPage := 1,
          pages := [(1, { page := 1, status := PageStatus.idle })],
          isFetching := false, maxAccessiblePage := 1,
          pendingJumpPage := none : PaperState Nat Unit }).1).2 = [] :=
  fetch_dedup_amended _ (by decide)

/-- C4 counterexample: on a one-page configuration the fetch effect issues the
fetch for page 1, the fetch fails (`commitError`), and the next run of the fetch
effect issues page 1 again — two fetches for a page that stayed resident the
whole time, with no intervening `reloadPage`. -/
theorem fetch_once_counterexample :
    (fetchStep (reconcileStep (initState Nat Unit
        { pageSize := 1, totalPages := 1, windowSize := 1,
          initialPage := 1, prefetchThresholdPages := 1 }))).2 = [1] ∧
    (fetchStep
        { (fetchStep (reconcileStep (initState Nat Unit
            { pageSize := 1, totalPages := 1, windowSize := 1,
              initialPage := 1, prefetchThresholdPages := 1 }))).1 with
          pages := loadPageCommitError
            (fetchStep (reconcileStep (initState Nat Unit
              { pageSize := 1, totalPages := 1, windowSize := 1,
                initialPage := 1, prefetchThresholdPages := 1 }))).1.pages 1 () }).2 =
      [1] ∧
    (lookupPage (fetchStep (reconcileStep (initState Nat Unit
        { pageSize := 1, totalPages := 1, windowSize := 1,
          initialPage := 1, prefetchThresholdPages := 1 }))).1.pages 1).isSome =
      true ∧
    (lookupPage (loadPageCommitError
        (fetchStep (reconcileStep (initState Nat Unit
          { pageSize := 1, totalPages := 1, windowSize := 1,
            initialPage := 1, prefetchThresholdPages := 1 }))).1.pages 1 ()) 1).isSome =
      true := by
  decide

/-! ### C7: the auto index-kind detection rule -/

/-- The auto-detection condition as the specification words it (section 4.4):
treat the pair as relative exactly when the window-relative interpretation maps
both indices to pages inside the current window, and neither raw index exceeds
the materialized item count `(endPage − startPage + 1) * pageSize`. -/
def specAutoRelative (pageSize : Int) (w : PageWindow)
    (visibleStartIndex visibleStopIndex : Int) : Prop :=
  let windowOffset := (w.startPage - 1) * pageSize
  let materializedCount := (w.endPage - w.startPage + 1) * pageSize
  (w.startPage ≤ pageFromIndex (windowOffset + visibleStartIndex) pageSize ∧
    pageFromIndex (windowOffset + visibleStartIndex) pageSize ≤ w.endPage) ∧
  (w.startPage ≤ pageFromIndex (windowOffset + visibleStopIndex) pageSize ∧
    pageFromIndex (windowOffset + visibleStopIndex) pageSize ≤ w.endPage) ∧
  visibleStartIndex ≤ materializedCount ∧ visibleStopIndex ≤ materializedCount

/-- C7 counterexample: with `pageSize = 2`, `windowSize = 2` and the (reachable)
window `[1, 1]`, the report `(2, 1)` is treated as relative by the code even
though the relative start index maps to page 2, outside the window — the
spec's "exactly when" biconditional fails at this input. -/
theorem auto_detection_counterexample :
    autoIndicesAreGlobal 2 2 { startPage := 1, endPage := 1 } 2 1 = false ∧
    ¬specAutoRelative 2 { startPage := 1, endPage := 1 } 2 1 ∧
    (initState Nat Unit
      { pageSize := 2, totalPages := 1, windowSize := 2,
        initialPage := 1, prefetchThresholdPages := 1 }).pageWindow =
      { startPage := 1, endPage := 1 } := by
  refine ⟨by decide, ?_, by decide⟩
  dsimp only [specAutoRelative, pageFromIndex]
  decide

theorem pageFromIndex_ge_iff {ps : Int} (hps : 0 < ps) (a si : Int) :
    a ≤ pageFromIndex ((a - 1) * ps + si) ps ↔ 0 ≤ si := by
  unfold pageFromIndex
  rw [Int.fdiv_eq_ediv _ (by omega)]
  have h := Int.le_ediv_iff_mul_le (a := a - 1) (b := (a - 1) * ps + si) hps
  omega

theorem pageFromIndex_le_iff {ps : Int} (hps : 0 < ps) (a b si : Int) :
    pageFromIndex ((a - 1) * ps + si) ps ≤ b ↔ si < (b - a + 1) * ps := by
  unfold pageFromIndex
  rw [Int.fdiv_eq_ediv _ (by omega)]
  have h := Int.ediv_lt_iff_lt_mul (a := (a - 1) * ps + si) (b := b) hps
  have hr : (b - a + 1) * ps = b * ps - (a - 1) * ps := by ring
  omega

/-- C7 amended: for `pageSize ≥ 1`, the auto rule treats the pair as
window-relative exactly when the raw start index is ≥ 0 (equivalently its
window-relative page is ≥ `startPage`), the raw stop index is below the
materialized item count (equivalently its window-relative page is ≤ `endPage`),
and both raw indices are below `windowSize * pageSize` (the full window
capacity the code uses, not the materialized count). The stop's lower page
bound and the start's upper page bound are not checked. -/
theorem auto_detection_amended (pageSize windowSize : Int) (w : PageWindow)
    (si so : Int) (hps : 1 ≤ pageSize) :
    autoIndicesAreGlobal pageSize windowSize w si so = false ↔
      (0 ≤ si ∧ so < (w.endPage - w.startPage + 1) * pageSize ∧
        si < windowSize * pageSize ∧ so < windowSize * pageSize) := by
  have hpos : (0 : Int) < pageSize := by omega
  simp only [autoIndicesAreGlobal, Bool.or_eq_false_iff, Bool.not_eq_false',
    Bool.and_eq_true, decide_eq_true_eq, decide_eq_false_iff_not, not_le, ge_iff_le]
  rw [pageFromIndex_ge_iff hpos, pageFromIndex_le_iff hpos]
  constructor
  · rintro ⟨⟨⟨h1, h2⟩, h3⟩, h4⟩
    exact ⟨h1, h2, h3, h4⟩
  · rintro ⟨h1, h2, h3, h4⟩
    exact ⟨⟨⟨h1, h2⟩, h3⟩, h4⟩

/-- Closed witness for `auto_detection_amended` at `pageSize = 2`,
`windowSize = 2`, window `[1, 1]`, indices `(0, 1)`. -/
theorem auto_detection_amended_witness :
    autoIndicesAreGlobal 2 2 { startPage := 1, endPage := 1 } 0 1 = false ↔
      ((0 : Int) ≤ 0 ∧ (1 : Int) < (1 - 1 + 1) * 2 ∧
        (0 : Int) < 2 * 2 ∧ (1 : Int) < 2 * 2) :=
  auto_detection_amended 2 2 { startPage := 1, endPage := 1 } 0 1 (by norm_num)

end InfinitePaper
